import Mathlib

/-!
Verification of the Document Degradation Pipeline of `pdf_quality_botV2.py`.

The file embeds, as executable Lean definitions, the parts of the program
the frozen claims speak about:

* `process_pdf` (source lines 216-282): the orchestrator that opens the
  source document, rasterizes/transforms/encodes each page, reports
  progress, finalizes the output and returns `(success, pages_count)`.
  External effects (PyMuPDF open/render/save, PIL/JPEG encode) are
  abstracted into a `PipelineEnv` that records, for one run, which of
  those operations would raise; the Lean function computes the run's
  observable outcome from that environment.
* the per-page transformation chain `add_blur` / `add_skew` / `add_noise` /
  `process_page` (source lines 176-214), with the external PIL blur and
  cv2 rotation kept as parameters (`ImagePrims`) and the numpy noise +
  clip + uint8 cast modelled concretely over `ℚ`;
* the rate-limited `progress_callback` closure of `process_pdf_file`
  (source lines 543-567);
* the caller-side parameter clamps of `handle_text_input`
  (source lines 499-525).
-/

/-- One progress invocation, in the argument order of the source call
`self.progress_callback(progress, page_num + 1, total_pages)`:
(percent, currentPage, totalPages). -/
abbrev ProgressEvent := Nat × Nat × Nat

/-- Abstraction of the external effects of one `process_pdf` run.

* `openResult`: `none` if `fitz.open(pdf_path)` raises (corrupt source),
  `some n` if it succeeds with an `n`-page document;
* `pageFails i`: whether some step of page `i`'s cycle
  (render / transform / JPEG encode / insert) raises;
* `hasCallback`: whether `self.progress_callback` is set;
* `callbackThrows i`: whether the progress callback raises when invoked
  after page `i`. -/
structure PipelineEnv where
  openResult : Option Nat
  pageFails : Nat → Bool
  hasCallback : Bool
  callbackThrows : Nat → Bool

/-- Models the invocation `await self.progress_callback(...)` (source line 262):
either returns normally or raises. -/
def attemptCallback (throws : Bool) : Except Unit Unit :=
  if throws then Except.error () else Except.ok ()

/-- Models the `try: ... except: pass` wrapped around the callback invocation
(source lines 261-264): any exception from the callback is caught and
discarded, so the surrounding loop always sees a normal return. -/
def swallowErrors (x : Except Unit Unit) : Except Unit Unit :=
  match x with
  | Except.error _ => Except.ok ()
  | Except.ok _ => Except.ok ()

/-- The progress value `int((page_num + 1) / total_pages * 100)` computed
at source line 259, for 0-based page index `k` out of `total` pages,
as the floor of the exact ratio.  (Python computes it in binary floating
point, which agrees in particular on the final page, where
`total / total * 100` is exactly `100.0`.) -/
def progressPercent (total k : Nat) : Nat :=
  100 * (k + 1) / total

/-- The per-page loop of `process_pdf` (source lines 228-267), run over the
first `k` pages.  Returns `(ok, pages, calls)` where `ok` records whether
every iteration so far completed without raising, `pages` is the number of
pages appended to `output_doc`, and `calls` lists the progress-callback
invocations made so far (in order).  If the callback raises, the exception
is swallowed (`swallowErrors`); the `Except.error` branch below is what
would happen if it escaped to the surrounding `try`, and is unreachable. -/
def runPages (env : PipelineEnv) (total : Nat) : Nat → Bool × Nat × List ProgressEvent
  | 0 => (true, 0, [])
  | k + 1 =>
    match runPages env total k with
    | (false, pages, calls) => (false, pages, calls)
    | (true, pages, calls) =>
      if env.pageFails k then (false, pages, calls)
      else if env.hasCallback then
        match swallowErrors (attemptCallback (env.callbackThrows k)) with
        | Except.ok _ =>
          (true, pages + 1, calls ++ [(progressPercent total k, k + 1, total)])
        | Except.error _ =>
          (false, pages + 1, calls ++ [(progressPercent total k, k + 1, total)])
      else (true, pages + 1, calls)

/-- Observable outcome of one `process_pdf` run: the returned pair
(`success`, `pageCount`), the number of pages in the output document
(`outPages`), whether `output_doc.save(output_path, ...)` completed
(`saved`), whether `pdf_doc.close()` / `output_doc.close()` were reached
(`srcClosed`, `outClosed`), and the progress invocations (`calls`). -/
structure RunResult where
  success : Bool
  pageCount : Nat
  outPages : Nat
  saved : Bool
  srcClosed : Bool
  outClosed : Bool
  calls : List ProgressEvent

/-- Embedding of `PDFCorruptor.process_pdf` (source lines 216-282).

The whole body sits in a `try`; the `except` branch (lines 278-282) prints
the error and returns `(False, 0)` without saving or closing anything.
On the success path the code saves, reads `pages_count = len(pdf_doc)`,
closes both handles and returns `(True, pages_count)`.

The guard `pages = 0` models PyMuPDF (pinned `PyMuPDF==1.23.8` by the
program's own install notes): `Document.save` raises
`ValueError("cannot save with zero pages")` when the output document has
no pages, so for an empty source the save at line 270 raises and the run
takes the `except` branch. -/
def process_pdf (env : PipelineEnv) : RunResult :=
  match env.openResult with
  | none => ⟨false, 0, 0, false, false, false, []⟩
  | some total =>
    match runPages env total total with
    | (true, pages, calls) =>
      if pages = 0 then ⟨false, 0, pages, false, false, false, calls⟩
      else ⟨true, total, pages, true, true, true, calls⟩
    | (false, pages, calls) => ⟨false, 0, pages, false, false, false, calls⟩

/-- The callback invocation list produced by a failure-free run of the
page loop over `k` pages, when a callback is present. -/
def callsFor (env : PipelineEnv) (total k : Nat) : List ProgressEvent :=
  if env.hasCallback then
    (List.range k).map (fun i => (progressPercent total i, i + 1, total))
  else []

/-! ### The rate-limited progress reporter

The nested `progress_callback` of `process_pdf_file` (source lines
545-567) keeps `last_update_time = [0]` and, on each invocation with
wall-clock time `t` and percent `p`, returns early (no emission) when
`t - last_update_time[0] < 2 and p < 100`; otherwise it sets
`last_update_time[0] = t` and attempts to edit the progress message.
We model an invocation as a pair `(t, p)` with `t : Int` (wall-clock
seconds) and fold the closure's state over an invocation list. -/

/-- Emission decisions of the rate-limited reporter, starting from
last-emit timestamp `last`: `true` at the positions whose invocation got
past the rate-limit gate (source line 551). -/
def progressRun : Int → List (Int × Nat) → List Bool
  | _, [] => []
  | last, (t, p) :: rest =>
    if t - last < 2 ∧ p < 100 then false :: progressRun last rest
    else true :: progressRun t rest

/-- The reporter's `last_update_time[0]` after processing an invocation
list, starting from `last`. -/
def progressLast : Int → List (Int × Nat) → Int
  | last, [] => last
  | last, (t, p) :: rest =>
    if t - last < 2 ∧ p < 100 then progressLast last rest
    else progressLast t rest

/-- Emission decisions for a whole run; `last_update_time` starts at `[0]`
(source line 543). -/
def progressEmits (invs : List (Int × Nat)) : List Bool :=
  progressRun 0 invs

/-! ### The transformation chain

`add_blur`, `add_skew`, `add_noise`, `process_page` (source lines
176-214).  A raster page is its flat list of 8-bit channel values.  The
external PIL Gaussian blur and the cv2 rotation are kept as parameters
(`ImagePrims`); the noise stage's numpy arithmetic (float add, clip to
[0, 255], cast to uint8) is modelled concretely over `ℚ`, with the random
draw an explicit input. -/

/-- A raster page as its flat list of channel values (each 0-255 in a
well-formed image). -/
abbrev Img := List Nat

/-- The external image primitives used by the chain:
`PIL.ImageFilter.GaussianBlur(radius)` (source line 181) and the
`cv2.getRotationMatrix2D` + `cv2.warpAffine(..., BORDER_REFLECT)` rotation
by `angle` degrees (source lines 188-196). -/
structure ImagePrims where
  gaussianBlur : Int → Img → Img
  rotate : Int → Img → Img

/-- The five `PDFCorruptor` parameters (source lines 168-174). -/
structure DegParams where
  blur : Int
  skew : Int
  noise : Int
  quality : Int
  dpi : Int

/-- Embedding of `PDFCorruptor.add_blur` (source lines 176-181): identity when
`blur_amount == 0`, otherwise Gaussian blur of radius
`max(1, blur_amount)`. -/
def add_blur (P : ImagePrims) (blur_amount : Int) (image : Img) : Img :=
  if blur_amount = 0 then image
  else P.gaussianBlur (max 1 blur_amount) image

/-- Embedding of `PDFCorruptor.add_skew` (source lines 183-196): identity when
`skew_amount == 0`, otherwise the cv2 rotation about the image center. -/
def add_skew (P : ImagePrims) (skew_amount : Int) (image : Img) : Img :=
  if skew_amount = 0 then image
  else P.rotate skew_amount image

/-- Embedding of `np.clip(v, 0, 255)` applied to one channel value (source line 205). -/
def clip255 (v : ℚ) : ℚ := max 0 (min 255 v)

/-- Embedding of `.astype(np.uint8)` applied to one clipped channel value (source line
205): C-style cast of a float, i.e. truncation and reduction modulo 2^8.
On the nonnegative values `np.clip` produces, truncation toward zero is
the floor. -/
def toByte (v : ℚ) : Nat := (Int.floor v).toNat % 256

/-- Embedding of `PDFCorruptor.add_noise` (source lines 198-207): identity when
`noise_amount == 0`, otherwise adds the per-channel draw of
`np.random.normal(0, noise_amount, shape)` (here the explicit `draw`),
clips to [0, 255] and casts back to uint8. -/
def add_noise (noise_amount : Int) (draw : List ℚ) (image : Img) : Img :=
  if noise_amount = 0 then image
  else List.zipWith (fun (x : Nat) (q : ℚ) => toByte (clip255 ((x : ℚ) + q))) image draw

/-- Embedding of `PDFCorruptor.process_page` (source lines 209-214): blur, then skew,
then noise, by successive reassignment of `image`. -/
def process_page (P : ImagePrims) (p : DegParams) (draw : List ℚ) (image : Img) : Img :=
  let image1 := add_blur P p.blur image
  let image2 := add_skew P p.skew image1
  let image3 := add_noise p.noise draw image2
  image3

/-! ### Caller-side parameter clamping

`handle_text_input` (source lines 499-525) parses an integer and stores
`max(lo, min(hi, value))` per parameter. -/

/-- Clamp for `blur` (source line 503): `max(0, min(20, value))`. -/
def clampBlur (value : Int) : Int := max 0 (min 20 value)

/-- Clamp for `skew` (source line 508): `max(-45, min(45, value))`. -/
def clampSkew (value : Int) : Int := max (-45) (min 45 value)

/-- Clamp for `noise` (source line 513): `max(0, min(50, value))`. -/
def clampNoise (value : Int) : Int := max 0 (min 50 value)

/-- Clamp for `quality` (source line 518): `max(10, min(100, value))`. -/
def clampQuality (value : Int) : Int := max 10 (min 100 value)

/-- Clamp for `dpi` (source line 523): `max(72, min(300, value))`. -/
def clampDpi (value : Int) : Int := max 72 (min 300 value)

/-! ### Concrete runs used in counterexamples and witnesses -/

/-- A source that opens as a 0-page document, with nothing else failing. -/
def envEmptyDoc : PipelineEnv := ⟨some 0, fun _ => false, true, fun _ => false⟩

/-- A 1-page source whose first page cycle raises. -/
def envPageError : PipelineEnv := ⟨some 1, fun _ => true, true, fun _ => false⟩

/-- A source that cannot be opened (garbage bytes). -/
def envBadOpen : PipelineEnv := ⟨none, fun _ => false, false, fun _ => false⟩

/-- A clean 3-page run with a callback that never throws. -/
def envGood3 : PipelineEnv := ⟨some 3, fun _ => false, true, fun _ => false⟩

/-- A clean 2-page run with no callback installed. -/
def envNoCb2 : PipelineEnv := ⟨some 2, fun _ => false, false, fun _ => false⟩

/-- A clean 3-page run whose callback throws on every invocation. -/
def envThrow3 : PipelineEnv := ⟨some 3, fun _ => false, true, fun _ => true⟩

/-- Concrete image primitives for witnesses: both externals shift every
channel value up by one, so neither is the identity on `[0]`. -/
def testPrims : ImagePrims :=
  ⟨fun _ image => image.map (fun v => v + 1), fun _ image => image.map (fun v => v + 1)⟩

/-! ## Lemmas about the page loop -/

/-- The `except: pass` wrapper never lets an exception escape. -/
theorem swallowErrors_ok (x : Except Unit Unit) : swallowErrors x = Except.ok () := by
  cases x <;> rfl

/-- A failure-free prefix of the page loop completes all `k` iterations,
appends `k` output pages and makes exactly the invocations `callsFor`. -/
theorem runPages_ok (env : PipelineEnv) (total : Nat) :
    ∀ k, (∀ i, i < k → env.pageFails i = false) →
      runPages env total k = (true, k, callsFor env total k) := by
  intro k
  induction k with
  | zero =>
    intro _
    simp [runPages, callsFor]
  | succ k ih =>
    intro h
    have hk : env.pageFails k = false := h k (Nat.lt_succ_self k)
    have hrec := ih (fun i hi => h i (Nat.lt_succ_of_lt hi))
    by_cases hc : env.hasCallback
    · simp [runPages, hrec, hk, hc, swallowErrors_ok, callsFor, List.range_succ]
    · simp [runPages, hrec, hk, hc, callsFor]

/-- If some page among the first `k` raises, the loop reports failure. -/
theorem runPages_fails (env : PipelineEnv) (total : Nat) :
    ∀ k, (∃ i, i < k ∧ env.pageFails i = true) → (runPages env total k).1 = false := by
  intro k
  induction k with
  | zero =>
    rintro ⟨i, hi, _⟩
    exact absurd hi (Nat.not_lt_zero i)
  | succ k ih =>
    rintro ⟨i, hi, hf⟩
    rcases Nat.lt_succ_iff_lt_or_eq.mp hi with hlt | heq
    · have hprev := ih ⟨i, hlt, hf⟩
      rcases hr : runPages env total k with ⟨b, pages, calls⟩
      rw [hr] at hprev
      simp at hprev
      subst hprev
      simp [runPages, hr]
    · subst heq
      rcases hr : runPages env total i with ⟨b, pages, calls⟩
      cases b
      · simp [runPages, hr]
      · simp [runPages, hr, hf]

/-! ## Claims about the orchestrator -/

/-- C1 (counterexample): a source that opens successfully with 0 pages
satisfies the claim's antecedent (every page — vacuously — processes
without error), yet `process_pdf` does not return success: saving the
empty output document raises, so the run ends in the `except` branch. -/
theorem c1_counterexample :
    envEmptyDoc.openResult = some 0 ∧
    (∀ i, i < 0 → envEmptyDoc.pageFails i = false) ∧
    (process_pdf envEmptyDoc).success = false := by decide

/-- C1 (amended): for every source that opens successfully, has at least
one page, and whose every page processes without error, `process_pdf`
returns `(success = true, pageCount = N)` with `N` the source's page
count, and the saved output document contains exactly `N` pages. -/
theorem c1_success_run (env : PipelineEnv) (n : Nat)
    (ho : env.openResult = some n) (h1 : 1 ≤ n)
    (hf : ∀ i, i < n → env.pageFails i = false) :
    (process_pdf env).success = true ∧ (process_pdf env).pageCount = n ∧
    (process_pdf env).outPages = n ∧ (process_pdf env).saved = true := by
  have hr := runPages_ok env n n hf
  have hn : ¬n = 0 := by omega
  simp [process_pdf, ho, hr, hn]

/-- C1 witness: a clean 2-page run succeeds with 2 pages saved. -/
theorem c1_witness :
    (process_pdf envNoCb2).success = true ∧ (process_pdf envNoCb2).pageCount = 2 ∧
    (process_pdf envNoCb2).outPages = 2 ∧ (process_pdf envNoCb2).saved = true :=
  c1_success_run envNoCb2 2 rfl (by decide) (fun _ _ => rfl)

/-- C2 (counterexample): when the only page's cycle raises, `process_pdf`
returns `(False, 0)` from the `except` branch without reaching either
`close()` call — the handles are not closed on this exit path. -/
theorem c2_counterexample :
    (process_pdf envPageError).success = false ∧
    (process_pdf envPageError).srcClosed = false ∧
    (process_pdf envPageError).outClosed = false := by decide

/-- C2 (amended): the source and output document handles are closed
exactly on the successful exit path of `process_pdf`; every failure exit
returns from the `except` branch without closing either handle. -/
theorem c2_handles_closed_iff_success (env : PipelineEnv) :
    (process_pdf env).srcClosed = (process_pdf env).success ∧
    (process_pdf env).outClosed = (process_pdf env).success := by
  rcases ho : env.openResult with _ | total
  · simp [process_pdf, ho]
  · rcases hr : runPages env total total with ⟨b, pages, calls⟩
    cases b
    · simp [process_pdf, ho, hr]
    · by_cases hp : pages = 0
      · simp [process_pdf, ho, hr, hp]
      · simp [process_pdf, ho, hr, hp]

/-- C2 witness: on a clean 3-page run the handles are closed (and the run
succeeded). -/
theorem c2_witness :
    (process_pdf envGood3).srcClosed = (process_pdf envGood3).success :=
  (c2_handles_closed_iff_success envGood3).1

/-- C3: on every failing run — open failure, any page-cycle failure, or
the zero-page save failure — `process_pdf` returns
`(success = false, pageCount = 0)` and the output path is never written
(the save at line 270 is only reached, and only completes, on the
success path). -/
theorem c3_failure_unsaved (env : PipelineEnv)
    (h : env.openResult = none ∨
      ∃ n, env.openResult = some n ∧
        ((∃ i, i < n ∧ env.pageFails i = true) ∨ n = 0)) :
    (process_pdf env).success = false ∧ (process_pdf env).pageCount = 0 ∧
    (process_pdf env).saved = false := by
  rcases h with ho | ⟨n, ho, hcase⟩
  · simp [process_pdf, ho]
  · rcases hcase with hex | hz
    · have hb := runPages_fails env n n hex
      rcases hr : runPages env n n with ⟨b, pages, calls⟩
      rw [hr] at hb
      simp only at hb
      subst hb
      simp [process_pdf, ho, hr]
    · subst hz
      simp [process_pdf, ho, runPages]

/-- C3 witness: a source of garbage bytes (open fails) yields
`(False, 0)` with nothing written. -/
theorem c3_witness :
    (process_pdf envBadOpen).success = false ∧
    (process_pdf envBadOpen).pageCount = 0 ∧
    (process_pdf envBadOpen).saved = false :=
  c3_failure_unsaved envBadOpen (Or.inl rfl)

/-- C5: exceptions raised by the progress callback are swallowed by the
`try/except` at lines 261-264 and never abort processing: a clean run
over `n ≥ 1` pages whose callback throws on every invocation still
returns `(success = true, pageCount = n)`. -/
theorem c5_callback_errors_swallowed (env : PipelineEnv) (n : Nat)
    (ho : env.openResult = some n) (h1 : 1 ≤ n)
    (hf : ∀ i, i < n → env.pageFails i = false)
    (hc : env.hasCallback = true)
    (ht : ∀ i, env.callbackThrows i = true) :
    (process_pdf env).success = true ∧ (process_pdf env).pageCount = n := by
  have hr := runPages_ok env n n hf
  have hn : ¬n = 0 := by omega
  simp [process_pdf, ho, hr, hn]

/-- C5 witness: a 3-page run whose callback always throws still succeeds
with page count 3. -/
theorem c5_witness :
    (process_pdf envThrow3).success = true ∧ (process_pdf envThrow3).pageCount = 3 :=
  c5_callback_errors_swallowed envThrow3 3 rfl (by decide) (fun _ _ => rfl) rfl
    (fun _ => rfl)

/-- C10 (counterexample): for a 0-page source the run does not return
`(success = true, pageCount = 0)` with an empty output saved — saving a
zero-page document raises in PyMuPDF, so the run fails. -/
theorem c10_counterexample :
    ¬((process_pdf envEmptyDoc).success = true ∧
      (process_pdf envEmptyDoc).pageCount = 0 ∧
      (process_pdf envEmptyDoc).saved = true) := by decide

/-- C10 (amended): for a source that opens successfully with 0 pages,
`process_pdf` returns `(success = false, pageCount = 0)`, the progress
callback is never invoked, and nothing is saved to the output path. -/
theorem c10_zero_page_run (env : PipelineEnv) (ho : env.openResult = some 0) :
    (process_pdf env).success = false ∧ (process_pdf env).pageCount = 0 ∧
    (process_pdf env).saved = false ∧ (process_pdf env).calls = [] := by
  simp [process_pdf, ho, runPages]

/-- C10 witness: the concrete 0-page run fails unsaved with no callback
invocations. -/
theorem c10_witness :
    (process_pdf envEmptyDoc).success = false ∧
    (process_pdf envEmptyDoc).pageCount = 0 ∧
    (process_pdf envEmptyDoc).saved = false ∧
    (process_pdf envEmptyDoc).calls = [] :=
  c10_zero_page_run envEmptyDoc rfl

/-- C4: on every successful run over `n ≥ 1` pages with a callback
supplied, the callback is invoked exactly `n` times; the `i`-th
invocation (0-based `i`) carries `currentPage = i + 1` (so strictly
increasing 1..n) and `totalPages = n`, and the final invocation carries
`percentComplete = 100`. -/
theorem c4_progress_invocations (env : PipelineEnv) (n : Nat)
    (ho : env.openResult = some n) (h1 : 1 ≤ n)
    (hf : ∀ i, i < n → env.pageFails i = false)
    (hc : env.hasCallback = true) :
    (process_pdf env).calls.length = n ∧
    (∀ (i : Nat) (h : i < (process_pdf env).calls.length),
      ((process_pdf env).calls.get ⟨i, h⟩).2.1 = i + 1 ∧
      ((process_pdf env).calls.get ⟨i, h⟩).2.2 = n) ∧
    (∀ h : n - 1 < (process_pdf env).calls.length,
      ((process_pdf env).calls.get ⟨n - 1, h⟩).1 = 100) := by
  have hr := runPages_ok env n n hf
  have hn : ¬n = 0 := by omega
  have hcalls : (process_pdf env).calls =
      (List.range n).map (fun i => (progressPercent n i, i + 1, n)) := by
    simp [process_pdf, ho, hr, hn, callsFor, hc]
  refine ⟨?_, ?_, ?_⟩
  · rw [hcalls]
    simp
  · simp only [hcalls]
    intro i h
    have hi : i < n := by simpa using h
    simp [hcalls, List.get_eq_getElem, List.getElem_map, List.getElem_range]
  · simp only [hcalls]
    intro h
    have hs : n - 1 + 1 = n := by omega
    simp [hcalls, List.get_eq_getElem, List.getElem_map, List.getElem_range,
      progressPercent, hs, Nat.mul_div_cancel, Nat.pos_of_ne_zero hn]

/-- C4 witness: a clean 3-page run makes exactly 3 invocations. -/
theorem c4_witness :
    (process_pdf envGood3).calls.length = 3 :=
  (c4_progress_invocations envGood3 3 rfl (by decide) (fun _ _ => rfl) rfl).1

/-! ## Lemmas about the rate-limited reporter -/

/-- The reporter makes one emission decision per invocation. -/
theorem progressRun_length (last : Int) (invs : List (Int × Nat)) :
    (progressRun last invs).length = invs.length := by
  induction invs generalizing last with
  | nil => rfl
  | cons hd tl ih =>
    rcases hd with ⟨t, p⟩
    by_cases hg : t - last < 2 ∧ p < 100
    · simp [progressRun, hg, ih]
    · simp [progressRun, hg, ih]

/-- The reporter's decisions over a concatenation: the second part starts
from the `last_update_time` left by the first. -/
theorem progressRun_append (last : Int) (xs ys : List (Int × Nat)) :
    progressRun last (xs ++ ys) =
      progressRun last xs ++ progressRun (progressLast last xs) ys := by
  induction xs generalizing last with
  | nil => simp [progressRun, progressLast]
  | cons hd tl ih =>
    rcases hd with ⟨t, p⟩
    by_cases hg : t - last < 2 ∧ p < 100
    · simp [progressRun, progressLast, hg, ih]
    · simp [progressRun, progressLast, hg, ih]

/-- With nondecreasing wall-clock times all at or after `last`, the
stored `last_update_time` never moves backwards. -/
theorem progressLast_ge :
    ∀ (invs : List (Int × Nat)) (last : Int),
      List.Pairwise (fun a b : Int × Nat => a.1 ≤ b.1) invs →
      (∀ x ∈ invs, last ≤ x.1) →
      last ≤ progressLast last invs := by
  intro invs
  induction invs with
  | nil =>
    intro last _ _
    simp [progressLast]
  | cons hd tl ih =>
    intro last hmono hge
    rcases hd with ⟨t, p⟩
    rcases List.pairwise_cons.mp hmono with ⟨hhd, htl⟩
    by_cases hg : t - last < 2 ∧ p < 100
    · simp only [progressLast, if_pos hg]
      exact ih last htl (fun x hx => hge x (List.mem_cons_of_mem _ hx))
    · simp only [progressLast, if_neg hg]
      have h1 : last ≤ t := hge (t, p) (List.mem_cons_self _ _)
      have h2 : t ≤ progressLast t tl := ih t htl (fun x hx => hhd x hx)
      omega

/-- The stored `last_update_time` over a concatenation. -/
theorem progressLast_append (last : Int) (xs ys : List (Int × Nat)) :
    progressLast last (xs ++ ys) = progressLast (progressLast last xs) ys := by
  induction xs generalizing last with
  | nil => simp [progressLast]
  | cons hd tl ih =>
    rcases hd with ⟨t, p⟩
    by_cases hg : t - last < 2 ∧ p < 100
    · simp [progressLast, hg, ih]
    · simp [progressLast, hg, ih]

/-- Two invocations less than 2 seconds apart, the second below 100%,
cannot both emit: if the first one emitted, it set `last_update_time` to
its own time, and with nondecreasing wall-clock times everything up to
the second invocation keeps `last_update_time` at or after that time, so
the second invocation's gate fires. -/
theorem progress_two_close (l₁ l₂ l₃ : List (Int × Nat)) (t₁ t₂ : Int) (p₁ p₂ : Nat)
    (hmono : List.Pairwise (fun a b : Int × Nat => a.1 ≤ b.1)
      (l₁ ++ (t₁, p₁) :: l₂ ++ (t₂, p₂) :: l₃))
    (hclose : t₂ - t₁ < 2) (hp₂ : p₂ < 100) :
    ¬((progressEmits (l₁ ++ (t₁, p₁) :: l₂ ++ (t₂, p₂) :: l₃))[l₁.length]? = some true ∧
      (progressEmits
        (l₁ ++ (t₁, p₁) :: l₂ ++ (t₂, p₂) :: l₃))[l₁.length + 1 + l₂.length]? = some true) := by
  rintro ⟨h1, h2⟩
  have e0 : progressEmits (l₁ ++ (t₁, p₁) :: l₂ ++ (t₂, p₂) :: l₃)
      = progressRun 0 (l₁ ++ (t₁, p₁) :: l₂)
        ++ progressRun (progressLast 0 (l₁ ++ (t₁, p₁) :: l₂)) ((t₂, p₂) :: l₃) := by
    unfold progressEmits
    exact progressRun_append 0 _ _
  have e1 : progressRun 0 (l₁ ++ (t₁, p₁) :: l₂)
      = progressRun 0 l₁ ++ progressRun (progressLast 0 l₁) ((t₁, p₁) :: l₂) :=
    progressRun_append 0 l₁ _
  have hlen₁ : (progressRun 0 l₁).length = l₁.length := progressRun_length 0 l₁
  by_cases hg₁ : t₁ - progressLast 0 l₁ < 2 ∧ p₁ < 100
  · rw [e0, e1, List.append_assoc] at h1
    rw [List.getElem?_append_right (by omega)] at h1
    rw [show l₁.length - (progressRun 0 l₁).length = 0 by omega] at h1
    rw [show progressRun (progressLast 0 l₁) ((t₁, p₁) :: l₂)
        = false :: progressRun (progressLast 0 l₁) l₂ by simp [progressRun, hg₁]] at h1
    simp at h1
  · have e3 : progressLast 0 (l₁ ++ (t₁, p₁) :: l₂) = progressLast t₁ l₂ := by
      rw [progressLast_append]
      simp [progressLast, hg₁]
    have hB : t₁ ≤ progressLast t₁ l₂ := by
      rcases List.pairwise_append.mp hmono with ⟨hLeft, _, _⟩
      rcases List.pairwise_append.mp hLeft with ⟨_, hM, _⟩
      rcases List.pairwise_cons.mp hM with ⟨hall, hl₂⟩
      exact progressLast_ge l₂ t₁ hl₂ (fun x hx => hall x hx)
    have e4 : progressRun (progressLast 0 (l₁ ++ (t₁, p₁) :: l₂)) ((t₂, p₂) :: l₃)
        = false :: progressRun (progressLast t₁ l₂) l₃ := by
      rw [e3]
      have hg₂ : t₂ - progressLast t₁ l₂ < 2 ∧ p₂ < 100 := ⟨by omega, hp₂⟩
      simp [progressRun, hg₂]
    have hlenM : (progressRun 0 (l₁ ++ (t₁, p₁) :: l₂)).length
        = l₁.length + 1 + l₂.length := by
      rw [progressRun_length]
      simp
      omega
    rw [e0, e4] at h2
    rw [List.getElem?_append_right (by omega)] at h2
    rw [show l₁.length + 1 + l₂.length
        - (progressRun 0 (l₁ ++ (t₁, p₁) :: l₂)).length = 0 by omega] at h2
    simp at h2

/-- An invocation carrying 100% always gets past the gate, whatever the
stored `last_update_time` is. -/
theorem progress_final_emits :
    ∀ (invs : List (Int × Nat)) (last : Int) (i : Nat) (h : i < invs.length),
      (invs.get ⟨i, h⟩).2 = 100 → (progressRun last invs)[i]? = some true := by
  intro invs
  induction invs with
  | nil =>
    intro last i h
    exact absurd h (by simp)
  | cons hd tl ih =>
    intro last i h hp
    rcases hd with ⟨t, p⟩
    cases i with
    | zero =>
      have hpeq : p = 100 := hp
      have hgate : ¬(t - last < 2 ∧ p < 100) := by omega
      simp [progressRun, hgate]
    | succ j =>
      have hj : j < tl.length := by simpa using h
      have hp' : (tl.get ⟨j, hj⟩).2 = 100 := hp
      by_cases hg : t - last < 2 ∧ p < 100
      · simp [progressRun, hg, ih last j hj hp']
      · simp [progressRun, hg, ih t j hj hp']

/-- C6: for the rate-limited progress reporter, (a) of any two
invocations separated by less than 2 seconds of wall-clock time, neither
carrying 100%, at most one produces a visible emission (wall-clock time
is nondecreasing along the run, and percentages are in [0, 100]); and
(b) an invocation with `percentComplete = 100` always produces an
emission attempt, regardless of elapsed time since the last emission. -/
theorem c6_rate_limited_reporter :
    (∀ (l₁ l₂ l₃ : List (Int × Nat)) (t₁ t₂ : Int) (p₁ p₂ : Nat),
      List.Pairwise (fun a b : Int × Nat => a.1 ≤ b.1)
        (l₁ ++ (t₁, p₁) :: l₂ ++ (t₂, p₂) :: l₃) →
      t₂ - t₁ < 2 → p₁ ≠ 100 → p₂ ≠ 100 → p₁ ≤ 100 → p₂ ≤ 100 →
      ¬((progressEmits (l₁ ++ (t₁, p₁) :: l₂ ++ (t₂, p₂) :: l₃))[l₁.length]? = some true ∧
        (progressEmits
          (l₁ ++ (t₁, p₁) :: l₂ ++ (t₂, p₂) :: l₃))[l₁.length + 1 + l₂.length]? = some true)) ∧
    (∀ (invs : List (Int × Nat)) (i : Nat) (h : i < invs.length),
      (invs.get ⟨i, h⟩).2 = 100 → (progressEmits invs)[i]? = some true) := by
  constructor
  · intro l₁ l₂ l₃ t₁ t₂ p₁ p₂ hmono hclose _ hne₂ _ hle₂
    exact progress_two_close l₁ l₂ l₃ t₁ t₂ p₁ p₂ hmono hclose
      (lt_of_le_of_ne hle₂ hne₂)
  · intro invs i h hp
    exact progress_final_emits invs 0 i h hp

/-- C6 witness: two non-final invocations 1 second apart do not both
emit, and a final 100% invocation right after an emission still emits. -/
theorem c6_witness :
    (¬((progressEmits [(10, 50), (11, 60)])[0]? = some true ∧
      (progressEmits [(10, 50), (11, 60)])[1]? = some true)) ∧
    (progressEmits [(10, 50), (11, 100)])[1]? = some true :=
  ⟨c6_rate_limited_reporter.1 [] [] [] 10 11 50 60 (by decide) (by decide)
      (by decide) (by decide) (by decide) (by decide),
    c6_rate_limited_reporter.2 [(10, 50), (11, 100)] 1 (by decide) (by decide)⟩

/-! ## Lemmas about the noise stage -/

/-- Clipping to [0, 255] is nonnegative. -/
theorem clip255_nonneg (v : ℚ) : 0 ≤ clip255 v := le_max_left 0 _

/-- Clipping to [0, 255] yields at most 255. -/
theorem clip255_le (v : ℚ) : clip255 v ≤ 255 :=
  max_le (by norm_num) (min_le_left _ _)

/-- The uint8 cast of a clipped channel value does not wrap: the value's
floor already lies in [0, 255], so the mod-2^8 reduction is a no-op. -/
theorem toByte_clip255_no_wrap (v : ℚ) :
    toByte (clip255 v) = (Int.floor (clip255 v)).toNat := by
  have h1 : Int.floor (clip255 v) ≤ 255 := by
    have h2 := Int.floor_le_floor (α := ℚ) (clip255_le v)
    have h3 : (⌊(255 : ℚ)⌋ : ℤ) = 255 := by norm_num
    omega
  have h4 : (Int.floor (clip255 v)).toNat ≤ 255 := Int.toNat_le.mpr h1
  unfold toByte
  exact Nat.mod_eq_of_lt (by omega)

/-- The uint8 cast of a clipped channel value is at most 255. -/
theorem toByte_clip255_le (v : ℚ) : toByte (clip255 v) ≤ 255 := by
  rw [toByte_clip255_no_wrap]
  have h1 : Int.floor (clip255 v) ≤ 255 := by
    have h2 := Int.floor_le_floor (α := ℚ) (clip255_le v)
    have h3 : (⌊(255 : ℚ)⌋ : ℤ) = 255 := by norm_num
    omega
  exact Int.toNat_le.mpr h1

/-- Every channel the noise stage's elementwise map produces is at most
255, whatever the input values and the noise draw. -/
theorem zipWith_noise_le (image : Img) :
    ∀ (draw : List ℚ),
      ∀ v ∈ List.zipWith (fun (x : Nat) (q : ℚ) => toByte (clip255 ((x : ℚ) + q))) image draw,
        v ≤ 255 := by
  induction image with
  | nil =>
    intro draw v hv
    simp at hv
  | cons x xs ih =>
    intro draw v hv
    cases draw with
    | nil => simp at hv
    | cons q qs =>
      rcases List.mem_cons.mp hv with h | h
      · rw [h]
        exact toByte_clip255_le _
      · exact ih qs v h

/-! ## Claims about the transformation chain and parameter clamping -/

/-- C7: the per-page transformation chain is noise ∘ skew ∘ blur in that
fixed order, and each stage is the identity transform exactly when its
parameter is 0.  The external PIL Gaussian blur and cv2 rotation are
parameters of the embedding; the hypotheses `Hb`/`Hs` state the facts
about them the only-if directions need: a Gaussian blur of radius ≥ 1,
and a rotation by a nonzero angle in [-45, 45], each change at least one
image.  The noise stage needs no such hypothesis: its arithmetic is
modelled concretely and a draw of +100 on a zero pixel changes it. -/
theorem c7_chain_order_and_identities (P : ImagePrims)
    (Hb : ∀ r : Int, 1 ≤ r → ∃ image, P.gaussianBlur r image ≠ image)
    (Hs : ∀ a : Int, a ≠ 0 → -45 ≤ a → a ≤ 45 → ∃ image, P.rotate a image ≠ image) :
    (∀ (p : DegParams) (draw : List ℚ) (image : Img),
      process_page P p draw image
        = add_noise p.noise draw (add_skew P p.skew (add_blur P p.blur image))) ∧
    (∀ b : Int, (∀ image, add_blur P b image = image) ↔ b = 0) ∧
    (∀ s : Int, -45 ≤ s → s ≤ 45 →
      ((∀ image, add_skew P s image = image) ↔ s = 0)) ∧
    (∀ nz : Int, (∀ draw image, add_noise nz draw image = image) ↔ nz = 0) := by
  refine ⟨fun p draw image => rfl, ?_, ?_, ?_⟩
  · intro b
    constructor
    · intro hid
      by_contra hb
      rcases Hb (max 1 b) (le_max_left 1 b) with ⟨image, hne⟩
      have hstep : add_blur P b image = P.gaussianBlur (max 1 b) image := by
        unfold add_blur
        rw [if_neg hb]
      exact hne (by rw [← hstep]; exact hid image)
    · intro hb image
      subst hb
      simp [add_blur]
  · intro s hs1 hs2
    constructor
    · intro hid
      by_contra hs
      rcases Hs s hs hs1 hs2 with ⟨image, hne⟩
      have hstep : add_skew P s image = P.rotate s image := by
        unfold add_skew
        rw [if_neg hs]
      exact hne (by rw [← hstep]; exact hid image)
    · intro hs image
      subst hs
      simp [add_skew]
  · intro nz
    constructor
    · intro hid
      by_contra hnz
      have hval : add_noise nz [(100 : ℚ)] [0] = [100] := by
        unfold add_noise
        rw [if_neg hnz]
        show [toByte (clip255 (((0 : Nat) : ℚ) + (100 : ℚ)))] = [100]
        norm_num [toByte, clip255]
        decide
      have h0 := hid [(100 : ℚ)] [0]
      rw [hval] at h0
      exact absurd h0 (by decide)
    · intro hnz draw image
      subst hnz
      simp [add_noise]

/-- The witness primitives change the image `[0]` whatever the radius. -/
theorem testPrims_blur_ne (r : Int) : testPrims.gaussianBlur r [0] ≠ [0] := by
  simp [testPrims]

/-- The witness primitives change the image `[0]` whatever the angle. -/
theorem testPrims_rotate_ne (a : Int) : testPrims.rotate a [0] ≠ [0] := by
  simp [testPrims]

/-- C7 witness: with concrete primitives satisfying the non-identity
hypotheses, the chain decomposes as stated. -/
theorem c7_witness :
    process_page testPrims ⟨0, 0, 0, 50, 150⟩ [] [5]
      = add_noise 0 [] (add_skew testPrims 0 (add_blur testPrims 0 [5])) :=
  (c7_chain_order_and_identities testPrims
    (fun r _ => ⟨[0], testPrims_blur_ne r⟩)
    (fun a _ _ _ => ⟨[0], testPrims_rotate_ne a⟩)).1 ⟨0, 0, 0, 50, 150⟩ [] [5]

/-- C8: for `noiseStdDev > 0`, every channel value of the noise stage's
output lies in [0, 255] — the lower bound holds because the output
channels are `Nat`s — for every input image and every possible draw of
the random noise, and the conversion back to 8-bit pixels never wraps
(the mod-2^8 reduction of the cast is a no-op on the clipped value). -/
theorem c8_noise_clamped (nz : Int) (h : 0 < nz) (draw : List ℚ) (image : Img) :
    (∀ v ∈ add_noise nz draw image, v ≤ 255) ∧
    (∀ (x : Nat) (q : ℚ),
      toByte (clip255 ((x : ℚ) + q)) = (Int.floor (clip255 ((x : ℚ) + q))).toNat) := by
  constructor
  · have hnz : ¬nz = 0 := by omega
    unfold add_noise
    rw [if_neg hnz]
    exact zipWith_noise_le image draw
  · intro x q
    exact toByte_clip255_no_wrap _

/-- C8 witness: at a concrete channel value and a huge concrete draw, the
uint8 cast of the clipped sum does not wrap. -/
theorem c8_witness :
    toByte (clip255 (((0 : Nat) : ℚ) + (1000 : ℚ)))
      = (Int.floor (clip255 (((0 : Nat) : ℚ) + (1000 : ℚ)))).toNat :=
  (c8_noise_clamped 3 (by decide) [(1000 : ℚ)] [0]).2 0 1000

/-- C9: each of the five caller-side clamps maps every integer into its
documented range, and is the identity on values already inside the
range (idempotence: re-clamping a stored value changes nothing). -/
theorem c9_param_clamps (value : Int) :
    (0 ≤ clampBlur value ∧ clampBlur value ≤ 20) ∧
    (-45 ≤ clampSkew value ∧ clampSkew value ≤ 45) ∧
    (0 ≤ clampNoise value ∧ clampNoise value ≤ 50) ∧
    (10 ≤ clampQuality value ∧ clampQuality value ≤ 100) ∧
    (72 ≤ clampDpi value ∧ clampDpi value ≤ 300) ∧
    (0 ≤ value → value ≤ 20 → clampBlur value = value) ∧
    (-45 ≤ value → value ≤ 45 → clampSkew value = value) ∧
    (0 ≤ value → value ≤ 50 → clampNoise value = value) ∧
    (10 ≤ value → value ≤ 100 → clampQuality value = value) ∧
    (72 ≤ value → value ≤ 300 → clampDpi value = value) := by
  unfold clampBlur clampSkew clampNoise clampQuality clampDpi
  omega

/-- C9 witness: out-of-range inputs land in range; in-range inputs are
stored unchanged. -/
theorem c9_witness :
    (0 ≤ clampBlur 500 ∧ clampBlur 500 ≤ 20) ∧
    clampBlur 5 = 5 ∧ clampSkew (-10) = -10 ∧ clampNoise 30 = 30 ∧
    clampQuality 55 = 55 ∧ clampDpi 150 = 150 :=
  ⟨(c9_param_clamps 500).1,
    (c9_param_clamps 5).2.2.2.2.2.1 (by decide) (by decide),
    (c9_param_clamps (-10)).2.2.2.2.2.2.1 (by decide) (by decide),
    (c9_param_clamps 30).2.2.2.2.2.2.2.1 (by decide) (by decide),
    (c9_param_clamps 55).2.2.2.2.2.2.2.2.1 (by decide) (by decide),
    (c9_param_clamps 150).2.2.2.2.2.2.2.2.2 (by decide) (by decide)⟩
